import Mathlib

/-!
Verification of the research-paper-tracker backend core: the
filtering-and-aggregation query engine, the analytics aggregator and
the paper lifecycle manager.

The embedding below translates the TypeScript sources
(`apps/backend/src/services/paper.service.ts`,
`apps/backend/src/services/analytics.service.ts`,
`apps/backend/src/controllers/paper.controller.ts`,
`apps/backend/src/controllers/analytics.controller.ts`) into Lean.

Modelling conventions:
* The Prisma record store is modelled as a `List Paper`; `findFirst`,
  `findUnique`, `count` and `findMany` become list operations.  `findMany`
  with `skip`/`take` is modelled for non-negative skip/take (the only
  values the verified claims exercise).
* JavaScript `Date` values are modelled as local-time instants
  `⟨day, ms⟩`: a day index (day 0 = 1970-01-01, a Thursday, so JS
  `getDay t = (day + 4) mod 7`) plus milliseconds within the day.
  Local time equals UTC in the model (no DST), so `setDate(d + diff)`
  is day-index addition and `setHours(0,0,0,0)` zeroes `ms`.
* JS `number` is modelled as `Int` where the code only handles integers,
  as `Rat` where the code divides (analytics ratios; JS floating point
  arithmetic is modelled exactly), and as `JsNum` (an `Int` or `NaN`)
  where the code can produce `NaN` (`parseInt` in the controller).
* `new Date()` ("now") and Prisma id generation are effects; they are
  passed as explicit arguments.
-/

namespace RPT

/-- Reading stages, from `packages/shared/src/enums/readingStage.ts` /
the Prisma `ReadingStage` enum, in their defined enumeration order. -/
inductive ReadingStage
  | abstractRead
  | introductionDone
  | methodologyDone
  | resultsAnalyzed
  | fullyRead
  | notesCompleted
deriving DecidableEq

/-- Research domains, in their defined enumeration order. -/
inductive ResearchDomain
  | computerScience
  | biology
  | physics
  | chemistry
  | mathematics
  | socialSciences
deriving DecidableEq

/-- Impact scores. -/
inductive ImpactScore
  | highImpact
  | mediumImpact
  | lowImpact
  | unknownImpact
deriving DecidableEq

/-- A local-time instant: day index since 1970-01-01 plus ms within the
day.  Mirrors a JS `Date` at the granularity the backend uses. -/
structure Instant where
  day : Int
  ms : Nat
deriving DecidableEq

/-- `a ≤ b` on instants (used for Prisma's `dateAdded: { gte: … }`). -/
def Instant.le (a b : Instant) : Bool :=
  a.day < b.day || (a.day = b.day && a.ms ≤ b.ms)

/-- JS `Date.prototype.getDay` for an instant: 0 = Sunday … 6 = Saturday.
Day 0 (1970-01-01) was a Thursday, hence the `+ 4`. -/
def jsGetDay (t : Instant) : Int :=
  (t.day + 4) % 7

/-- Day number of a civil date (year, 1-based month, day-of-month),
day 0 = 1970-01-01 (Howard Hinnant's `days_from_civil`).  Used by the
`THIS_MONTH` / `LAST_3_MONTHS` branches of `getDateRangeStart`. -/
def daysFromCivil (y m d : Int) : Int :=
  let y' := if m ≤ 2 then y - 1 else y
  let era := Int.fdiv y' 400
  let yoe := y' - era * 400
  let mp := if m > 2 then m - 3 else m + 9
  let doy := (153 * mp + 2).ediv 5 + d - 1
  let doe := yoe * 365 + yoe.ediv 4 - yoe.ediv 100 + doy
  era * 146097 + doe - 719468

/-- Civil date (year, 1-based month, day-of-month) of a day number
(Howard Hinnant's `civil_from_days`). -/
def civilFromDays (z0 : Int) : Int × Int × Int :=
  let z := z0 + 719468
  let era := Int.fdiv z 146097
  let doe := z - era * 146097
  let yoe := (doe - doe.ediv 1460 + doe.ediv 36524 - doe.ediv 146096).ediv 365
  let y := yoe + era * 400
  let doy := doe - (365 * yoe + yoe.ediv 4 - yoe.ediv 100)
  let mp := (5 * doy + 2).ediv 153
  let d := doy - (153 * mp + 2).ediv 5 + 1
  let m := if mp < 10 then mp + 3 else mp - 9
  (if m ≤ 2 then y + 1 else y, m, d)

/-- `getDateRangeStart` from `paper.service.ts` lines 50-82; the copy in
`analytics.service.ts` lines 60-92 is textually identical and is
modelled by this same function.  `now` (the JS `new Date()`) is passed
explicitly.  The runtime `dateRange` value is an arbitrary string (the
controllers cast unvalidated query strings), so the `switch` is
modelled over `String`; both the `"ALL_TIME"` case and the `default`
case return `none` (JS `null`). -/
def getDateRangeStart (dateRange : String) (now : Instant) : Option Instant :=
  match dateRange with
  | "THIS_WEEK" =>
    -- const dayOfWeek = startOfWeek.getDay();
    -- const diff = dayOfWeek === 0 ? -6 : 1 - dayOfWeek;
    -- startOfWeek.setDate(startOfWeek.getDate() + diff);
    -- startOfWeek.setHours(0, 0, 0, 0);
    let dayOfWeek := jsGetDay now
    let diff := if dayOfWeek = 0 then -6 else 1 - dayOfWeek
    some ⟨now.day + diff, 0⟩
  | "THIS_MONTH" =>
    -- new Date(now.getFullYear(), now.getMonth(), 1), midnight
    let c := civilFromDays now.day
    some ⟨daysFromCivil c.1 c.2.1 1, 0⟩
  | "LAST_3_MONTHS" =>
    -- threeMonthsAgo.setMonth(threeMonthsAgo.getMonth() - 3), midnight;
    -- JS setMonth keeps the day-of-month and rolls over when the target
    -- month is shorter, which `first of month + (dom - 1) days` models.
    let c := civilFromDays now.day
    let m0 := c.2.1 - 3 - 1
    let y' := c.1 + Int.fdiv m0 12
    let m' := Int.emod m0 12 + 1
    some ⟨daysFromCivil y' m' 1 + (c.2.2 - 1), 0⟩
  | "ALL_TIME" => none
  | _ => none

/-- A Paper record as persisted by Prisma (`model Paper`). -/
structure Paper where
  id : String
  title : String
  firstAuthor : String
  researchDomain : ResearchDomain
  readingStage : ReadingStage
  citationCount : Int
  impactScore : ImpactScore
  dateAdded : Instant
  isArchived : Bool
  userKeyId : String
deriving DecidableEq

/-- `PaperFilters` / `AnalyticsFilters` as the services receive them.
`dateRange` is kept as a `String` because the controllers pass the raw
query string through an unchecked cast. -/
structure PaperFilters where
  readingStages : Option (List ReadingStage) := none
  researchDomains : Option (List ResearchDomain) := none
  impactScores : Option (List ImpactScore) := none
  dateRange : Option String := none

/-- The Prisma `where` object both services build: mandatory
`userKeyId` / `isArchived` conjuncts plus one optional `in:`-list
conjunct per filter dimension and an optional `dateAdded: gte`. -/
structure WhereClause where
  userKeyId : String
  isArchived : Bool
  readingStages : Option (List ReadingStage)
  researchDomains : Option (List ResearchDomain)
  impactScores : Option (List ImpactScore)
  dateAddedGte : Option Instant

/-- `if (filters.xs && filters.xs.length > 0) where.x = { in: filters.xs }`:
the `in:` slot a present, non-empty filter list contributes.  Each of
the three list-filter blocks in `getPapers` (paper service lines
212-231) and in `buildWhereClause` (analytics service lines 103-122) is
an instance of this. -/
def presentNonEmpty {α : Type} (l? : Option (List α)) : Option (List α) :=
  match l? with
  | some l => if l.length > 0 then some l else none
  | none => none

/-- The optional `dateAdded: { gte: … }` slot (paper service lines
233-241, analytics service lines 124-132): present only when
`filters.dateRange` is truthy (JS: present and not `""`) and
`getDateRangeStart` returns non-null. -/
def dateRangeGte (dr? : Option String) (now : Instant) : Option Instant :=
  match dr? with
  | some dr => if dr = "" then none else getDateRangeStart dr now
  | none => none

/-- `buildWhereClause` from `analytics.service.ts` lines 97-135. -/
def buildWhereClause (userKeyId : String) (filters : PaperFilters) (now : Instant) : WhereClause :=
  { userKeyId := userKeyId
    isArchived := false
    readingStages := presentNonEmpty filters.readingStages
    researchDomains := presentNonEmpty filters.researchDomains
    impactScores := presentNonEmpty filters.impactScores
    dateAddedGte := dateRangeGte filters.dateRange now }

/-- The `where` object built inline by `getPapers` in `paper.service.ts`
lines 207-241; the construction is step-for-step the same as the
analytics `buildWhereClause`. -/
def paperWhereClause (userKeyId : String) (filters : PaperFilters) (now : Instant) : WhereClause :=
  { userKeyId := userKeyId
    isArchived := false
    readingStages := presentNonEmpty filters.readingStages
    researchDomains := presentNonEmpty filters.researchDomains
    impactScores := presentNonEmpty filters.impactScores
    dateAddedGte := dateRangeGte filters.dateRange now }

/-- Semantics of an optional `in:` conjunct on one record. -/
def inConj {α : Type} [DecidableEq α] (l? : Option (List α)) (x : α) : Bool :=
  match l? with
  | some l => x ∈ l
  | none => true

/-- Semantics of an optional `gte:` conjunct on one record. -/
def gteConj (s? : Option Instant) (t : Instant) : Bool :=
  match s? with
  | some s => Instant.le s t
  | none => true

/-- Prisma `where`-object semantics on one record: the conjunction of
the present conjuncts (`in:` is list membership, `gte:` is `≥`). -/
def matchesWhere (w : WhereClause) (p : Paper) : Bool :=
  p.userKeyId = w.userKeyId &&
  p.isArchived = w.isArchived &&
  inConj w.readingStages p.readingStage &&
  inConj w.researchDomains p.researchDomain &&
  inConj w.impactScores p.impactScore &&
  gteConj w.dateAddedGte p.dateAdded

/-- Spec-side inclusion-set constraint (§4.1/§4.3): a present,
non-empty list requires membership; an absent or empty list imposes no
constraint. -/
def specIn {α : Type} [DecidableEq α] (l? : Option (List α)) (x : α) : Bool :=
  match l? with
  | some l => l.isEmpty || x ∈ l
  | none => true

/-- Spec-side date conjunct (§4.2/§4.3): a lower bound on `dateAdded`
exactly when the symbolic range resolves; otherwise unconstrained. -/
def specDateConj (dr? : Option String) (now t : Instant) : Bool :=
  match dr? with
  | some dr => gteConj (getDateRangeStart dr now) t
  | none => true

/-- `scopedPredicate(ownerId, filterSpec)` written from the spec's words
(§4.3): ownerId equality AND `isArchived = false`, then one
inclusion-set conjunct per present filter dimension and the resolved
date lower bound.  This is the spec-side definition that the
code-derived `matchesWhere ∘ paperWhereClause / buildWhereClause` is
compared against. -/
def specScopedPredicate (ownerId : String) (filters : PaperFilters) (now : Instant)
    (p : Paper) : Bool :=
  p.userKeyId = ownerId &&
  p.isArchived = false &&
  specIn filters.readingStages p.readingStage &&
  specIn filters.researchDomains p.researchDomain &&
  specIn filters.impactScores p.impactScore &&
  specDateConj filters.dateRange now p.dateAdded

/-- The item projection `getPapers` selects (no `isArchived`, no
`userKeyId`). -/
structure PaperListItem where
  id : String
  title : String
  firstAuthor : String
  researchDomain : ResearchDomain
  readingStage : ReadingStage
  citationCount : Int
  impactScore : ImpactScore
  dateAdded : Instant
deriving DecidableEq

def Paper.toListItem (p : Paper) : PaperListItem :=
  { id := p.id, title := p.title, firstAuthor := p.firstAuthor
    researchDomain := p.researchDomain, readingStage := p.readingStage
    citationCount := p.citationCount, impactScore := p.impactScore
    dateAdded := p.dateAdded }

/-- `PaginationInput` as the service receives it (fields may be
absent). -/
structure PaginationInput where
  page : Option Int := none
  pageSize : Option Int := none

structure PaginationMeta where
  page : Int
  pageSize : Int
  total : Nat
deriving DecidableEq

structure PaperListResult where
  items : List PaperListItem
  pagination : PaginationMeta
deriving DecidableEq

/-- Prisma's `orderBy: { dateAdded: "desc" }` comparison. -/
def dateDescLe (a b : Paper) : Bool :=
  Instant.le b.dateAdded a.dateAdded

/-- `getPapers` from `paper.service.ts` lines 198-274.  The record
store `db` and `now` are explicit.  `page`/`pageSize` take the
destructuring defaults 1/10 only when absent.  `count` and `findMany`
run over the same `where` object; `findMany` sorts by `dateAdded`
descending (tie order is store-defined; the model uses a stable merge
sort) and applies `skip`/`take`, modelled here for the non-negative
values the verified claims exercise. -/
def getPapers (db : List Paper) (userKeyId : String) (filters : PaperFilters)
    (pagination : PaginationInput) (now : Instant) : PaperListResult :=
  let page := pagination.page.getD 1
  let pageSize := pagination.pageSize.getD 10
  let skip := (page - 1) * pageSize
  let w := paperWhereClause userKeyId filters now
  let total := (db.filter (matchesWhere w)).length
  let papers :=
    ((((db.filter (matchesWhere w)).mergeSort dateDescLe).drop skip.toNat).take
      pageSize.toNat).map Paper.toListItem
  { items := papers, pagination := { page := page, pageSize := pageSize, total := total } }

-- ===========================================================================
-- Analytics aggregation (`analytics.service.ts`)
-- ===========================================================================

/-- The projection the analytics query selects per matching record. -/
structure AnalyticsPaper where
  readingStage : ReadingStage
  researchDomain : ResearchDomain
  citationCount : Int
  impactScore : ImpactScore
deriving DecidableEq

structure FunnelData where
  stage : ReadingStage
  count : Nat
deriving DecidableEq

structure ScatterData where
  citationCount : Int
  impactScore : ImpactScore
deriving DecidableEq

/-- One stacked-bar entry; the JS `Record<string, number>` of per-stage
counts is modelled as an insertion-ordered association list, so key
presence/absence is represented faithfully. -/
structure StackedBarData where
  domain : ResearchDomain
  stages : List (ReadingStage × Nat)
deriving DecidableEq

structure SummaryMetrics where
  totalPapers : Nat
  fullyRead : Nat
  completionRate : Rat
  avgCitationsByDomain : List (ResearchDomain × Rat)
deriving DecidableEq

structure AnalyticsResponse where
  funnel : List FunnelData
  scatter : List ScatterData
  stackedBar : List StackedBarData
  summary : SummaryMetrics

/-- `allStages` as listed in `computeFunnelData` (lines 148-155). -/
def allStages : List ReadingStage :=
  [ReadingStage.abstractRead, ReadingStage.introductionDone,
   ReadingStage.methodologyDone, ReadingStage.resultsAnalyzed,
   ReadingStage.fullyRead, ReadingStage.notesCompleted]

/-- `allDomains` as listed in `computeStackedBarData` (lines 195-202)
and `computeSummaryMetrics` (lines 255-262). -/
def allDomains : List ResearchDomain :=
  [ResearchDomain.computerScience, ResearchDomain.biology,
   ResearchDomain.physics, ResearchDomain.chemistry,
   ResearchDomain.mathematics, ResearchDomain.socialSciences]

/-- `computeFunnelData` (lines 146-176).  The JS
`Map<ReadingStage, number>` is dense (every stage pre-initialised to
0), so it is modelled as a total function built by the same
per-paper incrementing fold; the output lists `allStages` in order. -/
def computeFunnelData (papers : List AnalyticsPaper) : List FunnelData :=
  let stageCounts : ReadingStage → Nat :=
    papers.foldl
      (fun counts p => fun s =>
        if s = p.readingStage then counts s + 1 else counts s)
      (fun _ => 0)
  allStages.map (fun s => { stage := s, count := stageCounts s })

/-- `computeScatterData` (lines 182-187): a direct projection. -/
def computeScatterData (papers : List AnalyticsPaper) : List ScatterData :=
  papers.map (fun p => { citationCount := p.citationCount, impactScore := p.impactScore })

/-- Association-list lookup (the JS `Map.get`). -/
def alookup {α β : Type} [DecidableEq α] (k : α) : List (α × β) → Option β
  | [] => none
  | (k', v) :: rest => if k' = k then some v else alookup k rest

/-- Replace the value stored at key `s` (JS `Map.set` on an existing
key: in place, insertion order kept, other entries untouched). -/
def setKey (m : List (ReadingStage × Nat)) (s : ReadingStage) (c : Nat) :
    List (ReadingStage × Nat) :=
  match m with
  | [] => []
  | (k, v) :: rest =>
    if k = s then (k, c) :: setKey rest s c else (k, v) :: setKey rest s c

/-- One `domainMap.set(stage, current + 1)` step on an inner stacked-bar
map: JS `Map.set` updates an existing key in place (keeping insertion
order) and appends a missing key at the end. -/
def bumpStage (m : List (ReadingStage × Nat)) (s : ReadingStage) : List (ReadingStage × Nat) :=
  match alookup s m with
  | some c => setKey m s (c + 1)
  | none => m ++ [(s, 1)]

/-- The per-paper counting fold of `computeStackedBarData`
(lines 213-219), with an explicit initial accumulator. -/
def domainStagesFold (papers : List AnalyticsPaper)
    (init : ResearchDomain → List (ReadingStage × Nat)) :
    ResearchDomain → List (ReadingStage × Nat) :=
  papers.foldl
    (fun m p => fun d =>
      if d = p.researchDomain then bumpStage (m d) p.readingStage else m d)
    init

/-- `computeStackedBarData` (lines 193-235).  The outer
`Map<ResearchDomain, Map<ReadingStage, number>>` is dense (every domain
pre-initialised to an empty inner map), so it is modelled as a total
function; the inner maps stay sparse association lists.  The source's
`if (domainMap)` test is always true (every enum domain was
initialised) and the `|| new Map()` fallback is dead, so neither needs
a case in the model. -/
def computeStackedBarData (papers : List AnalyticsPaper) : List StackedBarData :=
  let domainStages := domainStagesFold papers (fun _ => [])
  allDomains.map (fun d => { domain := d, stages := domainStages d })

/-- Sum of the per-stage counts of one stacked-bar entry. -/
def valuesSum {α : Type} (m : List (α × Nat)) : Nat :=
  (m.map Prod.snd).sum

/-- `computeSummaryMetrics` (lines 240-284).  JS number division is
modelled in `Rat` (exact). -/
def computeSummaryMetrics (papers : List AnalyticsPaper) : SummaryMetrics :=
  let totalPapers := papers.length
  let fullyRead :=
    (papers.filter (fun p => p.readingStage = ReadingStage.fullyRead)).length
  let completionRate : Rat :=
    if totalPapers > 0 then (fullyRead : Rat) / (totalPapers : Rat) else 0
  let avgCitationsByDomain : List (ResearchDomain × Rat) :=
    allDomains.map (fun d =>
      let domainPapers := papers.filter (fun p => p.researchDomain = d)
      let totalCitations := domainPapers.foldl (fun sum p => sum + p.citationCount) (0 : Int)
      (d, if domainPapers.length > 0 then
            (totalCitations : Rat) / (domainPapers.length : Rat)
          else 0))
  { totalPapers := totalPapers, fullyRead := fullyRead
    completionRate := completionRate, avgCitationsByDomain := avgCitationsByDomain }

def Paper.toAnalytics (p : Paper) : AnalyticsPaper :=
  { readingStage := p.readingStage, researchDomain := p.researchDomain
    citationCount := p.citationCount, impactScore := p.impactScore }

/-- `getAnalytics` from `analytics.service.ts` lines 294-324: one full
(unpaginated, unordered) scan over the scoped record set, then the four
aggregations over the same fetched list. -/
def getAnalytics (db : List Paper) (userKeyId : String) (filters : PaperFilters)
    (now : Instant) : AnalyticsResponse :=
  let w := buildWhereClause userKeyId filters now
  let papers := (db.filter (matchesWhere w)).map Paper.toAnalytics
  { funnel := computeFunnelData papers
    scatter := computeScatterData papers
    stackedBar := computeStackedBarData papers
    summary := computeSummaryMetrics papers }

-- ===========================================================================
-- Paper lifecycle (`paper.service.ts` createPaper / updatePaper / archivePaper)
-- ===========================================================================

structure CreatePaperInput where
  title : String
  firstAuthor : String
  researchDomain : ResearchDomain
  readingStage : ReadingStage
  citationCount : Int
  impactScore : ImpactScore

structure UpdatePaperInput where
  researchDomain : Option ResearchDomain := none
  readingStage : Option ReadingStage := none
  citationCount : Option Int := none

/-- `createPaper` (lines 92-128).  The duplicate check is
`findFirst` on (title, firstAuthor, userKeyId) only — it does not
mention `isArchived`.  On success Prisma appends a record with
`dateAdded = now`, `isArchived = false` and a freshly generated id
(`now` and `newId` are the explicit effect arguments); the service
returns the new id. -/
def createPaper (db : List Paper) (userKeyId : String) (data : CreatePaperInput)
    (now : Instant) (newId : String) : Except String (List Paper × String) :=
  match db.find? (fun p =>
      p.title = data.title && p.firstAuthor = data.firstAuthor &&
      p.userKeyId = userKeyId) with
  | some _ => .error "DUPLICATE_PAPER"
  | none =>
    let paper : Paper :=
      { id := newId, title := data.title, firstAuthor := data.firstAuthor
        researchDomain := data.researchDomain, readingStage := data.readingStage
        citationCount := data.citationCount, impactScore := data.impactScore
        dateAdded := now, isArchived := false, userKeyId := userKeyId }
    .ok (db ++ [paper], newId)

/-- `updatePaper` (lines 134-162).  `findUnique` on the id (the store
keeps ids unique; modelled as first match), `NOT_FOUND` when missing or
owned by another key, otherwise a patch of the three mutable fields
(absent fields are left unchanged, matching Prisma `undefined`). -/
def updatePaper (db : List Paper) (paperId userKeyId : String)
    (data : UpdatePaperInput) : Except String (List Paper) :=
  match db.find? (fun p => p.id = paperId) with
  | none => .error "NOT_FOUND"
  | some paper =>
    if paper.userKeyId ≠ userKeyId then
      .error "NOT_FOUND"
    else
      .ok (db.map (fun q =>
        if q.id = paperId then
          { q with
            researchDomain := data.researchDomain.getD q.researchDomain
            readingStage := data.readingStage.getD q.readingStage
            citationCount := data.citationCount.getD q.citationCount }
        else q))

/-- `archivePaper` (lines 168-191): same existence/ownership checks as
`updatePaper`, then sets `isArchived := true`. -/
def archivePaper (db : List Paper) (paperId userKeyId : String) :
    Except String (List Paper) :=
  match db.find? (fun p => p.id = paperId) with
  | none => .error "NOT_FOUND"
  | some paper =>
    if paper.userKeyId ≠ userKeyId then
      .error "NOT_FOUND"
    else
      .ok (db.map (fun q => if q.id = paperId then { q with isArchived := true } else q))

-- ===========================================================================
-- Controller-level parsing (`paper.controller.ts` getPapers, lines 150-184;
-- `analytics.controller.ts` getAnalytics, lines 27-52)
-- ===========================================================================

/-- An Express query value: a string, an array of values, or a parsed
object (`ParsedQs`). -/
inductive QueryVal
  | str (s : String)
  | arr (elems : List QueryVal)
  | obj

/-- JS truthiness of a query value (`""` is falsy; arrays and objects
are truthy). -/
def jsTruthy : QueryVal → Bool
  | .str s => s ≠ ""
  | .arr _ => true
  | .obj => true

/-- A JS number that may be `NaN` (what `parseInt` can produce). -/
inductive JsNum
  | nan
  | int (i : Int)
deriving DecidableEq

/-- `parseInt(s, 10)`: skip leading whitespace, optional sign, then the
longest run of decimal digits; `NaN` when no digit follows. -/
def jsParseInt (s : String) : JsNum :=
  let cs := s.toList.dropWhile (fun c => c = ' ' || c = '\t' || c = '\n' || c = '\r')
  let signAndRest : Int × List Char :=
    match cs with
    | '-' :: r => (-1, r)
    | '+' :: r => (1, r)
    | r => (1, r)
  let ds := signAndRest.2.takeWhile Char.isDigit
  if ds.isEmpty then JsNum.nan
  else JsNum.int (signAndRest.1 * (ds.foldl (fun a c => a * 10 + (c.toNat - 48)) 0 : Nat))

/-- `xs.filter(x => typeof x === "string")`: keeps exactly the string
elements, in order. -/
def stringsOnly (l : List QueryVal) : List String :=
  l.filterMap (fun x =>
    match x with
    | QueryVal.str s => some s
    | _ => none)

/-- The normalisation the controllers apply to each enum-list query
field (lines 152-171 of the paper controller and 29-48 of the analytics
controller, identical code per field): skip a falsy value, wrap a
non-array into a one-element array, then keep exactly the
`typeof === "string"` elements — there is no membership check against
the enumeration, the survivors are cast unchecked.  Returns `none` when
the field is skipped (left absent). -/
def normalizeEnumList (v : Option QueryVal) : Option (List String) :=
  match v with
  | none => none
  | some v =>
    if jsTruthy v then
      let items := match v with
        | .arr l => l
        | x => [x]
      some (stringsOnly items)
    else none

/-- `Array.isArray(q) ? q[0] : q` (lines 178-179): a single query value
for `page`/`pageSize`; `[0]` of an empty array is `undefined`. -/
def firstParam : Option QueryVal → Option QueryVal
  | some (.arr l) => l.head?
  | x => x

/-- `pageParam && typeof pageParam === "string" ? parseInt(pageParam, 10) : 1`
(line 182): the default applies when the value is absent, not a string,
or the empty string; otherwise the raw `parseInt` result — possibly
`NaN`, zero or negative — is passed through unvalidated. -/
def parsePageParam (v : Option QueryVal) : JsNum :=
  match firstParam v with
  | some (.str s) => if s = "" then JsNum.int 1 else jsParseInt s
  | _ => JsNum.int 1

/-- Same for `pageSize` with default 10 (line 183). -/
def parsePageSizeParam (v : Option QueryVal) : JsNum :=
  match firstParam v with
  | some (.str s) => if s = "" then JsNum.int 10 else jsParseInt s
  | _ => JsNum.int 10

/-- The value strings of the `ReadingStage` enumeration
(`packages/shared/src/enums/readingStage.ts`). -/
def readingStageStrings : List String :=
  ["Abstract Read", "Introduction Done", "Methodology Done",
   "Results Analyzed", "Fully Read", "Notes Completed"]

/-- A sample record used to instantiate theorems at concrete inputs. -/
def mkPaper (pid uid : String) (arch : Bool) (d : Int) : Paper :=
  { id := pid, title := "T", firstAuthor := "A",
    researchDomain := ResearchDomain.physics, readingStage := ReadingStage.fullyRead,
    citationCount := 3, impactScore := ImpactScore.highImpact,
    dateAdded := ⟨d, 0⟩, isArchived := arch, userKeyId := uid }

-- ===========================================================================
-- Lemmas: the built where-clause agrees with the spec-side scoped predicate
-- ===========================================================================

theorem inConj_presentNonEmpty {α : Type} [DecidableEq α] (l? : Option (List α)) (x : α) :
    inConj (presentNonEmpty l?) x = specIn l? x := by
  rcases l? with _ | l
  · rfl
  · cases l <;> simp [presentNonEmpty, inConj, specIn]

theorem gteConj_dateRangeGte (dr? : Option String) (now t : Instant) :
    gteConj (dateRangeGte dr? now) t = specDateConj dr? now t := by
  rcases dr? with _ | dr
  · rfl
  · by_cases h : dr = ""
    · subst h; rfl
    · simp [dateRangeGte, specDateConj, h]

theorem matchesWhere_paperWhere (owner : String) (filters : PaperFilters)
    (now : Instant) (p : Paper) :
    matchesWhere (paperWhereClause owner filters now) p =
      specScopedPredicate owner filters now p := by
  simp only [matchesWhere, paperWhereClause, specScopedPredicate,
    inConj_presentNonEmpty, gteConj_dateRangeGte]

theorem matchesWhere_buildWhere (owner : String) (filters : PaperFilters)
    (now : Instant) (p : Paper) :
    matchesWhere (buildWhereClause owner filters now) p =
      specScopedPredicate owner filters now p := by
  simp only [matchesWhere, buildWhereClause, specScopedPredicate,
    inConj_presentNonEmpty, gteConj_dateRangeGte]

theorem matchesWhere_owner_archived (w : WhereClause) (p : Paper)
    (h : matchesWhere w p = true) :
    p.userKeyId = w.userKeyId ∧ p.isArchived = w.isArchived := by
  simp only [matchesWhere, Bool.and_eq_true, decide_eq_true_eq] at h
  exact ⟨h.1.1.1.1.1, h.1.1.1.1.2⟩

-- ===========================================================================
-- C1
-- ===========================================================================

/-- C1: for every ownerId and every filter specification, the predicate
used by both the listing query (`getPapers`) and the analytics query
(`getAnalytics`) contains the conjuncts `userKeyId = ownerId` and
`isArchived = false`, so an archived record is never contained in the
result set of either operation, for any choice of filters. -/
theorem archived_never_visible (owner : String) (filters : PaperFilters)
    (now : Instant) (p : Paper) :
    (matchesWhere (paperWhereClause owner filters now) p = true →
       p.userKeyId = owner ∧ p.isArchived = false) ∧
    (matchesWhere (buildWhereClause owner filters now) p = true →
       p.userKeyId = owner ∧ p.isArchived = false) ∧
    (p.isArchived = true →
       ∀ db : List Paper,
         p ∉ db.filter (matchesWhere (paperWhereClause owner filters now)) ∧
         p ∉ db.filter (matchesWhere (buildWhereClause owner filters now))) := by
  have hpw : (paperWhereClause owner filters now).userKeyId = owner := rfl
  have hpa : (paperWhereClause owner filters now).isArchived = false := rfl
  have hbw : (buildWhereClause owner filters now).userKeyId = owner := rfl
  have hba : (buildWhereClause owner filters now).isArchived = false := rfl
  refine ⟨?_, ?_, ?_⟩
  · intro h
    have := matchesWhere_owner_archived _ _ h
    rw [hpw, hpa] at this
    exact this
  · intro h
    have := matchesWhere_owner_archived _ _ h
    rw [hbw, hba] at this
    exact this
  · intro harch db
    constructor
    · intro hmem
      have h := (List.mem_filter.mp hmem).2
      have := (matchesWhere_owner_archived _ _ h).2
      rw [hpa] at this
      rw [harch] at this
      cases this
    · intro hmem
      have h := (List.mem_filter.mp hmem).2
      have := (matchesWhere_owner_archived _ _ h).2
      rw [hba] at this
      rw [harch] at this
      cases this

/-- Witness for C1 at a concrete owner, empty filters and a concrete
matching record. -/
theorem archived_never_visible_witness :
    ({ id := "p1", title := "T", firstAuthor := "A",
       researchDomain := ResearchDomain.physics, readingStage := ReadingStage.fullyRead,
       citationCount := 3, impactScore := ImpactScore.highImpact,
       dateAdded := ⟨5, 0⟩, isArchived := false, userKeyId := "owner1" } : Paper).userKeyId
      = "owner1" ∧
    ({ id := "p1", title := "T", firstAuthor := "A",
       researchDomain := ResearchDomain.physics, readingStage := ReadingStage.fullyRead,
       citationCount := 3, impactScore := ImpactScore.highImpact,
       dateAdded := ⟨5, 0⟩, isArchived := false, userKeyId := "owner1" } : Paper).isArchived
      = false :=
  (archived_never_visible "owner1" {} ⟨0, 0⟩ _).1 (by decide)

-- ===========================================================================
-- C8
-- ===========================================================================

/-- C8: resolving `THIS_WEEK` yields the most recent Monday at local
midnight — exactly 6 days back when "now" is a Sunday and
(weekday − 1) days back otherwise — and resolving `ALL_TIME` or any
unrecognized value yields no lower bound: `getDateRangeStart` returns
null and the `dateAdded` conjunct is omitted from the where clause
entirely. -/
theorem dateRange_thisWeek_monday (now : Instant) :
    (∃ s : Instant, getDateRangeStart "THIS_WEEK" now = some s ∧
       s.ms = 0 ∧
       jsGetDay s = 1 ∧
       s.day ≤ now.day ∧
       now.day - s.day ≤ 6 ∧
       (jsGetDay now = 0 → now.day - s.day = 6) ∧
       (jsGetDay now ≠ 0 → now.day - s.day = jsGetDay now - 1)) ∧
    (∀ dr : String, dr ≠ "THIS_WEEK" → dr ≠ "THIS_MONTH" → dr ≠ "LAST_3_MONTHS" →
       getDateRangeStart dr now = none) ∧
    (∀ (owner : String) (filters : PaperFilters) (dr : String),
       filters.dateRange = some dr →
       dr ≠ "THIS_WEEK" → dr ≠ "THIS_MONTH" → dr ≠ "LAST_3_MONTHS" →
       (paperWhereClause owner filters now).dateAddedGte = none ∧
       (buildWhereClause owner filters now).dateAddedGte = none) := by
  have hnone : ∀ dr : String, dr ≠ "THIS_WEEK" → dr ≠ "THIS_MONTH" → dr ≠ "LAST_3_MONTHS" →
      getDateRangeStart dr now = none := by
    intro dr h1 h2 h3
    unfold getDateRangeStart
    split <;> simp_all
  refine ⟨?_, hnone, ?_⟩
  · by_cases h0 : jsGetDay now = 0
    · refine ⟨⟨now.day + -6, 0⟩, ?_, rfl, ?_, ?_, ?_, ?_, ?_⟩
      · simp [getDateRangeStart, h0]
      · simp only [jsGetDay] at h0 ⊢
        omega
      · dsimp only
        omega
      · dsimp only
        omega
      · intro _
        dsimp only
        omega
      · intro h; exact absurd h0 h
    · refine ⟨⟨now.day + (1 - jsGetDay now), 0⟩, ?_, rfl, ?_, ?_, ?_, ?_, ?_⟩
      · simp [getDateRangeStart, h0]
      · simp only [jsGetDay] at h0 ⊢
        omega
      · simp only [jsGetDay] at h0 ⊢
        omega
      · simp only [jsGetDay] at h0 ⊢
        omega
      · intro h; exact absurd h h0
      · intro _
        simp only [jsGetDay]
        omega
  · intro owner filters dr hdr h1 h2 h3
    have key : dateRangeGte filters.dateRange now = none := by
      rw [hdr]
      simp only [dateRangeGte]
      by_cases he : dr = ""
      · simp [he]
      · simp [he, hnone dr h1 h2 h3]
    exact ⟨key, key⟩

/-- Witness for C8: a Sunday "now" (day 3 = 1970-01-04) resolves
`THIS_WEEK` to the Monday 6 days earlier, and an unrecognized range
resolves to no bound. -/
theorem dateRange_thisWeek_monday_witness :
    getDateRangeStart "NEXT_DECADE" ⟨3, 500⟩ = none ∧
    (paperWhereClause "owner1" { dateRange := some "NEXT_DECADE" } ⟨3, 500⟩).dateAddedGte
      = none :=
  ⟨(dateRange_thisWeek_monday ⟨3, 500⟩).2.1 "NEXT_DECADE" (by decide) (by decide) (by decide),
   ((dateRange_thisWeek_monday ⟨3, 500⟩).2.2 "owner1" { dateRange := some "NEXT_DECADE" }
      "NEXT_DECADE" rfl (by decide) (by decide) (by decide)).1⟩

-- ===========================================================================
-- C9
-- ===========================================================================

/-- C9: `createPaper` fails with `DUPLICATE_PAPER` exactly when a record
of the same owner with the same (title, firstAuthor) already exists,
regardless of that record's archived state (the duplicate check does
not inspect `isArchived`); the same pair under a different owner is not
a duplicate; on success the new record carries `dateAdded = now`,
`isArchived = false` and the freshly generated id. -/
theorem createPaper_unique_per_owner (db : List Paper) (owner : String)
    (data : CreatePaperInput) (now : Instant) (newId : String) :
    (createPaper db owner data now newId = .error "DUPLICATE_PAPER" ↔
       ∃ p ∈ db, p.title = data.title ∧ p.firstAuthor = data.firstAuthor ∧
         p.userKeyId = owner) ∧
    ((¬ ∃ p ∈ db, p.title = data.title ∧ p.firstAuthor = data.firstAuthor ∧
         p.userKeyId = owner) →
       createPaper db owner data now newId =
         .ok (db ++ [{ id := newId, title := data.title, firstAuthor := data.firstAuthor,
                       researchDomain := data.researchDomain,
                       readingStage := data.readingStage,
                       citationCount := data.citationCount,
                       impactScore := data.impactScore,
                       dateAdded := now, isArchived := false, userKeyId := owner }],
               newId)) := by
  rcases hfind : db.find? (fun p =>
      p.title = data.title && p.firstAuthor = data.firstAuthor &&
      p.userKeyId = owner) with _ | q
  · have hall := List.find?_eq_none.mp hfind
    constructor
    · constructor
      · intro hcontra
        simp only [createPaper, hfind] at hcontra
        exact Except.noConfusion hcontra
      · rintro ⟨p, hp, h1, h2, h3⟩
        exact absurd (by simp [h1, h2, h3]) (hall p hp)
    · intro _
      simp only [createPaper, hfind]
  · have hq := List.find?_some hfind
    have hmem := List.mem_of_find?_eq_some hfind
    simp only [Bool.and_eq_true, decide_eq_true_eq] at hq
    constructor
    · constructor
      · intro _
        exact ⟨q, hmem, hq.1.1, hq.1.2, hq.2⟩
      · intro _
        simp only [createPaper, hfind]
    · intro hnone
      exact absurd ⟨q, hmem, hq.1.1, hq.1.2, hq.2⟩ hnone

/-- Witness for C9: an archived duplicate still blocks creation for its
owner, while the identical pair under a different owner succeeds. -/
theorem createPaper_unique_per_owner_witness :
    createPaper [mkPaper "p1" "u1" true 0] "u1"
        { title := "T", firstAuthor := "A",
          researchDomain := ResearchDomain.physics,
          readingStage := ReadingStage.fullyRead,
          citationCount := 3, impactScore := ImpactScore.highImpact }
        ⟨9, 0⟩ "id2" = .error "DUPLICATE_PAPER" ∧
    createPaper [mkPaper "p1" "u1" true 0] "u2"
        { title := "T", firstAuthor := "A",
          researchDomain := ResearchDomain.physics,
          readingStage := ReadingStage.fullyRead,
          citationCount := 3, impactScore := ImpactScore.highImpact }
        ⟨9, 0⟩ "id2" =
      .ok ([mkPaper "p1" "u1" true 0] ++
             [{ id := "id2", title := "T", firstAuthor := "A",
                researchDomain := ResearchDomain.physics,
                readingStage := ReadingStage.fullyRead,
                citationCount := 3, impactScore := ImpactScore.highImpact,
                dateAdded := ⟨9, 0⟩, isArchived := false, userKeyId := "u2" }],
           "id2") :=
  ⟨(createPaper_unique_per_owner [mkPaper "p1" "u1" true 0] "u1" _ ⟨9, 0⟩ "id2").1.mpr
     ⟨mkPaper "p1" "u1" true 0, by decide, by decide, by decide, by decide⟩,
   (createPaper_unique_per_owner [mkPaper "p1" "u1" true 0] "u2" _ ⟨9, 0⟩ "id2").2
     (by decide)⟩

-- ===========================================================================
-- C10
-- ===========================================================================

/-- C10: `updatePaper` and `archivePaper` fail with the identical
`NOT_FOUND` error both when no record with the id exists and when the
record exists but belongs to a different owner — no distinct forbidden
code. -/
theorem update_archive_notFound (db : List Paper) (paperId owner : String)
    (data : UpdatePaperInput) :
    ((∀ p ∈ db, p.id ≠ paperId) →
       updatePaper db paperId owner data = .error "NOT_FOUND" ∧
       archivePaper db paperId owner = .error "NOT_FOUND") ∧
    ((∃ p ∈ db, p.id = paperId) → (∀ p ∈ db, p.id = paperId → p.userKeyId ≠ owner) →
       updatePaper db paperId owner data = .error "NOT_FOUND" ∧
       archivePaper db paperId owner = .error "NOT_FOUND") := by
  constructor
  · intro hall
    have hnone : db.find? (fun p => p.id = paperId) = none :=
      List.find?_eq_none.mpr (fun x hx => by simpa using hall x hx)
    exact ⟨by simp only [updatePaper, hnone], by simp only [archivePaper, hnone]⟩
  · intro _ hforeign
    rcases hfind : db.find? (fun p => p.id = paperId) with _ | q
    · exact ⟨by simp only [updatePaper, hfind], by simp only [archivePaper, hfind]⟩
    · have hqid : q.id = paperId := by simpa using List.find?_some hfind
      have hmem := List.mem_of_find?_eq_some hfind
      have hne : q.userKeyId ≠ owner := hforeign q hmem hqid
      exact ⟨by simp [updatePaper, hfind, hne], by simp [archivePaper, hfind, hne]⟩

/-- Witness for C10: a foreign-owned id and a missing id both produce
`NOT_FOUND` for update and archive. -/
theorem update_archive_notFound_witness :
    updatePaper [mkPaper "p1" "u1" false 0] "p1" "u2" {} = .error "NOT_FOUND" ∧
    archivePaper [mkPaper "p1" "u1" false 0] "p1" "u2" = .error "NOT_FOUND" ∧
    updatePaper ([] : List Paper) "pX" "u1" {} = .error "NOT_FOUND" ∧
    archivePaper ([] : List Paper) "pX" "u1" = .error "NOT_FOUND" :=
  ⟨((update_archive_notFound [mkPaper "p1" "u1" false 0] "p1" "u2" {}).2
      ⟨mkPaper "p1" "u1" false 0, by decide, by decide⟩
      (by decide)).1,
   ((update_archive_notFound [mkPaper "p1" "u1" false 0] "p1" "u2" {}).2
      ⟨mkPaper "p1" "u1" false 0, by decide, by decide⟩
      (by decide)).2,
   ((update_archive_notFound ([] : List Paper) "pX" "u1" {}).1 (by decide)).1,
   ((update_archive_notFound ([] : List Paper) "pX" "u1" {}).1 (by decide)).2⟩

-- ===========================================================================
-- C6 (corrected)
-- ===========================================================================

/-- Counterexample to C6 as stated: the listing's pagination parsing
does not fall back to the defaults on invalid values — the string
`"0"` parses to page 0 (not the default 1) and a non-numeric string
parses to `NaN` (not the default 10); both are passed through. -/
theorem pagination_invalid_not_defaulted_cex :
    parsePageParam (some (QueryVal.str "0")) = JsNum.int 0 ∧
    JsNum.int 0 ≠ JsNum.int 1 ∧
    parsePageSizeParam (some (QueryVal.str "abc")) = JsNum.nan ∧
    JsNum.nan ≠ JsNum.int 10 := by
  refine ⟨rfl, by decide, rfl, by decide⟩

/-- C6 as amended: page defaults to 1 and pageSize to 10 only when the
query parameter is absent, not a single string, or the empty string;
any other string is handed to `parseInt` and its raw result — possibly
`NaN`, zero or negative — is passed through unchanged, with no
validity check (parsing itself never throws; it is the passed-through
value, not a parse error, that reaches the query). -/
theorem pagination_parse_passthrough :
    parsePageParam none = JsNum.int 1 ∧
    parsePageSizeParam none = JsNum.int 10 ∧
    parsePageParam (some QueryVal.obj) = JsNum.int 1 ∧
    parsePageSizeParam (some QueryVal.obj) = JsNum.int 10 ∧
    parsePageParam (some (QueryVal.str "")) = JsNum.int 1 ∧
    parsePageSizeParam (some (QueryVal.str "")) = JsNum.int 10 ∧
    (∀ s : String, s ≠ "" →
       parsePageParam (some (QueryVal.str s)) = jsParseInt s ∧
       parsePageSizeParam (some (QueryVal.str s)) = jsParseInt s) := by
  refine ⟨rfl, rfl, rfl, rfl, rfl, rfl, ?_⟩
  intro s hs
  constructor
  · simp [parsePageParam, firstParam, hs]
  · simp [parsePageSizeParam, firstParam, hs]

/-- Witness for the amended C6 at concrete invalid inputs. -/
theorem pagination_parse_passthrough_witness :
    parsePageParam (some (QueryVal.str "abc")) = jsParseInt "abc" ∧
    jsParseInt "abc" = JsNum.nan ∧
    parsePageSizeParam (some (QueryVal.str "-5")) = jsParseInt "-5" ∧
    jsParseInt "-5" = JsNum.int (-5) :=
  ⟨(pagination_parse_passthrough.2.2.2.2.2.2 "abc" (by decide)).1, by decide,
   (pagination_parse_passthrough.2.2.2.2.2.2 "-5" (by decide)).2, by decide⟩

-- ===========================================================================
-- C7 (corrected)
-- ===========================================================================

/-- Counterexample to C7 as stated: an unrecognized *string* value in a
filter list is not dropped by normalization — `"BOGUS"` is not a member
of the reading-stage enumeration yet survives normalization and is
forwarded. -/
theorem enum_normalization_keeps_unknown_cex :
    normalizeEnumList (some (QueryVal.str "BOGUS")) = some ["BOGUS"] ∧
    "BOGUS" ∉ readingStageStrings :=
  ⟨rfl, by decide⟩

/-- C7 as amended: normalization drops exactly the non-string values of
the readingStages / researchDomains / impactScores list fields; every
string element — member of the enumeration or not — is kept and
forwarded unchecked, and an empty surviving list imposes no constraint
on the query. -/
theorem enum_normalization_strings_passthrough :
    (∀ l : List QueryVal,
       normalizeEnumList (some (QueryVal.arr l)) = some (stringsOnly l)) ∧
    (∀ (l : List QueryVal) (s : String), s ∈ stringsOnly l ↔ QueryVal.str s ∈ l) ∧
    normalizeEnumList none = none ∧
    (∀ s : String, s ≠ "" → normalizeEnumList (some (QueryVal.str s)) = some [s]) ∧
    (∀ (owner : String) (now : Instant),
       (paperWhereClause owner
          { readingStages := some [], researchDomains := some [],
            impactScores := some [] } now).readingStages = none ∧
       (paperWhereClause owner
          { readingStages := some [], researchDomains := some [],
            impactScores := some [] } now).researchDomains = none ∧
       (paperWhereClause owner
          { readingStages := some [], researchDomains := some [],
            impactScores := some [] } now).impactScores = none) := by
  refine ⟨fun l => rfl, ?_, rfl, ?_, fun owner now => ⟨rfl, rfl, rfl⟩⟩
  · intro l s
    induction l with
    | nil => simp [stringsOnly]
    | cons x t ih =>
      cases x with
      | str s' =>
        have e : stringsOnly (QueryVal.str s' :: t) = s' :: stringsOnly t := rfl
        rw [e]
        simp only [List.mem_cons, ih]
        constructor
        · rintro (rfl | h)
          · exact Or.inl rfl
          · exact Or.inr h
        · rintro (h | h)
          · exact Or.inl (QueryVal.str.inj h)
          · exact Or.inr h
      | arr l' =>
        have e : stringsOnly (QueryVal.arr l' :: t) = stringsOnly t := rfl
        rw [e, ih]
        simp
      | obj =>
        have e : stringsOnly (QueryVal.obj :: t) = stringsOnly t := rfl
        rw [e, ih]
        simp
  · intro s hs
    simp [normalizeEnumList, jsTruthy, hs, stringsOnly]

/-- Witness for the amended C7 at a concrete unrecognized string. -/
theorem enum_normalization_strings_passthrough_witness :
    normalizeEnumList (some (QueryVal.str "BOGUS_STAGE")) = some ["BOGUS_STAGE"] ∧
    ("BOGUS_STAGE" ∈ stringsOnly [QueryVal.obj, QueryVal.str "BOGUS_STAGE"] ↔
       QueryVal.str "BOGUS_STAGE" ∈ [QueryVal.obj, QueryVal.str "BOGUS_STAGE"]) :=
  ⟨enum_normalization_strings_passthrough.2.2.2.1 "BOGUS_STAGE" (by decide),
   enum_normalization_strings_passthrough.2.1 [QueryVal.obj, QueryVal.str "BOGUS_STAGE"]
     "BOGUS_STAGE"⟩

-- ===========================================================================
-- Lemmas for the aggregation claims
-- ===========================================================================

theorem stageCountsFold (papers : List AnalyticsPaper) (f0 : ReadingStage → Nat)
    (s : ReadingStage) :
    (papers.foldl
        (fun counts p => fun s' =>
          if s' = p.readingStage then counts s' + 1 else counts s')
        f0) s
      = f0 s + (papers.filter (fun p => p.readingStage = s)).length := by
  induction papers generalizing f0 with
  | nil => simp
  | cons p t ih =>
    rw [List.foldl_cons, ih]
    by_cases h : s = p.readingStage
    · subst h
      simp [List.filter_cons]
      omega
    · have h' : ¬ p.readingStage = s := fun e => h e.symm
      simp [List.filter_cons, h, h']

theorem funnel_counts_sum_aux (papers : List AnalyticsPaper) :
    (allStages.map
        (fun s => (papers.filter (fun p => p.readingStage = s)).length)).sum
      = papers.length := by
  induction papers with
  | nil => rfl
  | cons p t ih =>
    simp only [allStages, List.map_cons, List.map_nil, List.sum_cons, List.sum_nil,
      List.filter_cons, List.length_cons] at ih ⊢
    cases hp : p.readingStage <;> simp [hp] at ih ⊢ <;> omega

-- ===========================================================================
-- C3
-- ===========================================================================

/-- C3: the funnel always has exactly 6 entries, one per readingStage in
the fixed enumeration order; each entry's count is the number of
records at that stage (zero-count stages included); and the counts sum
to the record-set size, which is `summary.totalPapers` of the same
scope in `getAnalytics`. -/
theorem funnel_six_dense_ordered_sum (papers : List AnalyticsPaper) :
    (computeFunnelData papers).length = 6 ∧
    (computeFunnelData papers).map FunnelData.stage = allStages ∧
    (∀ fd ∈ computeFunnelData papers,
       fd.count = (papers.filter (fun p => p.readingStage = fd.stage)).length) ∧
    ((computeFunnelData papers).map FunnelData.count).sum = papers.length ∧
    (∀ (db : List Paper) (owner : String) (filters : PaperFilters) (now : Instant),
       ((getAnalytics db owner filters now).funnel.map FunnelData.count).sum =
         (getAnalytics db owner filters now).summary.totalPapers) := by
  have hcount : ∀ ps : List AnalyticsPaper,
      ((computeFunnelData ps).map FunnelData.count).sum = ps.length := by
    intro ps
    have : (computeFunnelData ps).map FunnelData.count =
        allStages.map (fun s => (ps.filter (fun p => p.readingStage = s)).length) := by
      simp only [computeFunnelData, List.map_map]
      refine List.map_congr_left ?_
      intro s _
      simp only [Function.comp_apply]
      simpa using stageCountsFold ps (fun _ => 0) s
    rw [this, funnel_counts_sum_aux]
  refine ⟨?_, ?_, ?_, hcount papers, ?_⟩
  · simp [computeFunnelData, allStages]
  · rfl
  · intro fd hfd
    simp only [computeFunnelData, List.mem_map] at hfd
    obtain ⟨s, _, rfl⟩ := hfd
    simpa using stageCountsFold papers (fun _ => 0) s
  · intro db owner filters now
    exact hcount _

/-- Witness for C3 at a concrete one-record set. -/
theorem funnel_six_dense_ordered_sum_witness :
    ({ stage := ReadingStage.fullyRead, count := 1 } : FunnelData).count =
      (([({ readingStage := ReadingStage.fullyRead,
            researchDomain := ResearchDomain.physics, citationCount := 10,
            impactScore := ImpactScore.highImpact } : AnalyticsPaper)]).filter
          (fun p => p.readingStage =
            ({ stage := ReadingStage.fullyRead, count := 1 } : FunnelData).stage)).length :=
  (funnel_six_dense_ordered_sum
      [({ readingStage := ReadingStage.fullyRead,
          researchDomain := ResearchDomain.physics, citationCount := 10,
          impactScore := ImpactScore.highImpact } : AnalyticsPaper)]).2.2.1
    { stage := ReadingStage.fullyRead, count := 1 } (by decide)

theorem foldl_add_citations (l : List AnalyticsPaper) (a : Int) :
    l.foldl (fun sum p => sum + p.citationCount) a
      = a + (l.map (fun p => p.citationCount)).sum := by
  induction l generalizing a with
  | nil => simp
  | cons p t ih =>
    simp only [List.foldl_cons, List.map_cons, List.sum_cons, ih]
    ring

theorem alookup_map_allDomains {β : Type} (g : ResearchDomain → β) (d : ResearchDomain) :
    alookup d (allDomains.map (fun d' => (d', g d'))) = some (g d) := by
  cases d <;> rfl

-- ===========================================================================
-- C5
-- ===========================================================================

/-- C5: `summary.totalPapers` is the set size, `summary.fullyRead` the
count of Fully Read records, `summary.completionRate` is exactly
`fullyRead / totalPapers` when the set is non-empty and 0 on the empty
set, and `summary.avgCitationsByDomain` maps each of the 6 fixed
domains to the mean citationCount of its records (zero-citation records
included) or to 0 when the domain has none in scope. -/
theorem summary_metrics_spec (papers : List AnalyticsPaper) :
    (computeSummaryMetrics papers).totalPapers = papers.length ∧
    (computeSummaryMetrics papers).fullyRead =
      (papers.filter (fun p => p.readingStage = ReadingStage.fullyRead)).length ∧
    (papers.length = 0 → (computeSummaryMetrics papers).completionRate = 0) ∧
    (0 < papers.length →
       (computeSummaryMetrics papers).completionRate =
         ((papers.filter (fun p => p.readingStage = ReadingStage.fullyRead)).length : Rat) /
           (papers.length : Rat)) ∧
    ((computeSummaryMetrics papers).avgCitationsByDomain.map Prod.fst = allDomains) ∧
    (∀ d : ResearchDomain,
       alookup d (computeSummaryMetrics papers).avgCitationsByDomain =
         some (if (papers.filter (fun p => p.researchDomain = d)).length = 0 then 0
               else (Int.cast (((papers.filter (fun p => p.researchDomain = d)).map
                        (fun p => p.citationCount)).sum) : Rat) /
                    ((papers.filter (fun p => p.researchDomain = d)).length : Rat))) := by
  refine ⟨rfl, rfl, ?_, ?_, rfl, ?_⟩
  · intro h
    simp [computeSummaryMetrics, h]
  · intro h
    simp [computeSummaryMetrics, h]
  · intro d
    have hmap : (computeSummaryMetrics papers).avgCitationsByDomain
        = allDomains.map (fun d' =>
            (d', if (papers.filter (fun p => p.researchDomain = d')).length > 0 then
                   (Int.cast ((papers.filter (fun p => p.researchDomain = d')).foldl
                       (fun sum p => sum + p.citationCount) (0 : Int)) : Rat) /
                     ((papers.filter (fun p => p.researchDomain = d')).length : Rat)
                 else 0)) := rfl
    rw [hmap, alookup_map_allDomains]
    rcases Nat.eq_zero_or_pos (papers.filter (fun p => p.researchDomain = d)).length
      with h | h
    · simp [h]
    · rw [foldl_add_citations]
      have h0 : (papers.filter (fun p => p.researchDomain = d)).length ≠ 0 := by omega
      simp [h, h0]

/-- Witness for C5: the summary on the empty set has completionRate 0,
and a domain holding one zero-citation record averages to 0 (not
omission). -/
theorem summary_metrics_spec_witness :
    (computeSummaryMetrics []).completionRate = 0 ∧
    alookup ResearchDomain.physics
        (computeSummaryMetrics
          [({ readingStage := ReadingStage.abstractRead,
              researchDomain := ResearchDomain.physics, citationCount := 0,
              impactScore := ImpactScore.lowImpact } : AnalyticsPaper)]).avgCitationsByDomain
      = some 0 :=
  ⟨(summary_metrics_spec []).2.2.1 rfl, by
    have := (summary_metrics_spec
      [({ readingStage := ReadingStage.abstractRead,
          researchDomain := ResearchDomain.physics, citationCount := 0,
          impactScore := ImpactScore.lowImpact } : AnalyticsPaper)]).2.2.2.2.2
      ResearchDomain.physics
    simpa using this⟩

theorem dateDescLe_trans (a b c : Paper) (hab : dateDescLe a b) (hbc : dateDescLe b c) :
    dateDescLe a c := by
  simp only [dateDescLe, Instant.le, Bool.or_eq_true, Bool.and_eq_true,
    decide_eq_true_eq] at hab hbc ⊢
  omega

theorem dateDescLe_total (a b : Paper) : dateDescLe a b || dateDescLe b a := by
  simp only [dateDescLe, Instant.le, Bool.or_eq_true, Bool.and_eq_true,
    decide_eq_true_eq]
  omega

-- ===========================================================================
-- C2
-- ===========================================================================

/-- C2: on a static dataset, `getPapers` returns `pagination.total`
equal to the number of records satisfying the scoped predicate, and
`items` equal to the page-th slice of size pageSize of the full
matching set sorted by `dateAdded` descending — count and page are
computed over the same predicate, with no drift, and the returned items
are sorted descending. -/
theorem getPapers_total_items_consistent (db : List Paper) (owner : String)
    (filters : PaperFilters) (now : Instant) (page pageSize : Int)
    (_hp : 1 ≤ page) (_hs : 1 ≤ pageSize) :
    (getPapers db owner filters { page := some page, pageSize := some pageSize }
        now).pagination.total
      = (db.filter (fun p => specScopedPredicate owner filters now p)).length ∧
    (getPapers db owner filters { page := some page, pageSize := some pageSize }
        now).pagination.page = page ∧
    (getPapers db owner filters { page := some page, pageSize := some pageSize }
        now).pagination.pageSize = pageSize ∧
    (getPapers db owner filters { page := some page, pageSize := some pageSize }
        now).items
      = ((((db.filter (fun p => specScopedPredicate owner filters now p)).mergeSort
             dateDescLe).drop ((page - 1) * pageSize).toNat).take
           pageSize.toNat).map Paper.toListItem ∧
    (getPapers db owner filters { page := some page, pageSize := some pageSize }
        now).items.Pairwise (fun a b => Instant.le b.dateAdded a.dateAdded = true) := by
  have hfilter : db.filter (matchesWhere (paperWhereClause owner filters now))
      = db.filter (fun p => specScopedPredicate owner filters now p) :=
    List.filter_congr (fun p _ => matchesWhere_paperWhere owner filters now p)
  refine ⟨?_, rfl, rfl, ?_, ?_⟩
  · show (db.filter (matchesWhere (paperWhereClause owner filters now))).length = _
    rw [hfilter]
  · show ((((db.filter (matchesWhere (paperWhereClause owner filters now))).mergeSort
        dateDescLe).drop _).take _).map Paper.toListItem = _
    rw [hfilter]
    rfl
  · have hsorted : ((db.filter (matchesWhere
        (paperWhereClause owner filters now))).mergeSort dateDescLe).Pairwise
        (fun a b => dateDescLe a b = true) := by
      simpa using @List.sorted_mergeSort Paper dateDescLe
        (fun a b c => dateDescLe_trans a b c) dateDescLe_total
        (db.filter (matchesWhere (paperWhereClause owner filters now)))
    have hsub : ((((db.filter (matchesWhere (paperWhereClause owner filters
        now))).mergeSort dateDescLe).drop ((page - 1) * pageSize).toNat).take
          pageSize.toNat).Sublist
        ((db.filter (matchesWhere (paperWhereClause owner filters now))).mergeSort
          dateDescLe) :=
      (List.take_sublist _ _).trans (List.drop_sublist _ _)
    have hpair := hsorted.sublist hsub
    show (((((db.filter (matchesWhere (paperWhereClause owner filters
        now))).mergeSort dateDescLe).drop ((page - 1) * pageSize).toNat).take
          pageSize.toNat).map Paper.toListItem).Pairwise
        (fun a b => Instant.le b.dateAdded a.dateAdded = true)
    exact List.pairwise_map.mpr (hpair.imp (fun h => h))

/-- Witness for C2 on a concrete three-record store (one record
archived, one foreign-owned). -/
theorem getPapers_total_items_consistent_witness :
    (getPapers [mkPaper "a" "u1" false 5, mkPaper "b" "u1" true 6,
        mkPaper "c" "u2" false 7] "u1" {}
        { page := some 1, pageSize := some 10 } ⟨10, 0⟩).pagination.total
      = (([mkPaper "a" "u1" false 5, mkPaper "b" "u1" true 6,
           mkPaper "c" "u2" false 7]).filter
           (fun p => specScopedPredicate "u1" {} ⟨10, 0⟩ p)).length :=
  (getPapers_total_items_consistent
      [mkPaper "a" "u1" false 5, mkPaper "b" "u1" true 6, mkPaper "c" "u2" false 7]
      "u1" {} ⟨10, 0⟩ 1 10 (by decide) (by decide)).1

-- ===========================================================================
-- Association-list lemmas for the stacked-bar maps
-- ===========================================================================

theorem alookup_eq_none_iff {α β : Type} [DecidableEq α] (k : α) (m : List (α × β)) :
    alookup k m = none ↔ ∀ kv ∈ m, kv.1 ≠ k := by
  induction m with
  | nil => simp [alookup]
  | cons kv t ih =>
    obtain ⟨k', v⟩ := kv
    by_cases h : k' = k
    · simp [alookup, h]
    · simp [alookup, h, ih]

theorem eq_nil_of_alookup_none {α β : Type} [DecidableEq α] (m : List (α × β))
    (h : ∀ k, alookup k m = none) : m = [] := by
  cases m with
  | nil => rfl
  | cons kv t =>
    obtain ⟨k, v⟩ := kv
    have := h k
    simp [alookup] at this

theorem alookup_append_single_ne {α β : Type} [DecidableEq α] (m : List (α × β))
    (k k' : α) (c : β) (hne : k' ≠ k) :
    alookup k' (m ++ [(k, c)]) = alookup k' m := by
  induction m with
  | nil =>
    have h : ¬ k = k' := fun e => hne e.symm
    simp [alookup, h]
  | cons kv t ih =>
    obtain ⟨k₀, v₀⟩ := kv
    by_cases h : k₀ = k'
    · simp [alookup, h]
    · simp [alookup, h, ih]

theorem alookup_setKey_self (m : List (ReadingStage × Nat)) (s : ReadingStage)
    (v c : Nat) (hl : alookup s m = some v) :
    alookup s (setKey m s c) = some c := by
  induction m with
  | nil => simp [alookup] at hl
  | cons kv t ih =>
    obtain ⟨k, w⟩ := kv
    by_cases hk : k = s
    · simp [setKey, alookup, hk]
    · simp only [alookup, if_neg hk] at hl
      simp [setKey, alookup, hk, ih hl]

theorem alookup_setKey_ne (m : List (ReadingStage × Nat)) (s s' : ReadingStage)
    (c : Nat) (hne : s' ≠ s) :
    alookup s' (setKey m s c) = alookup s' m := by
  induction m with
  | nil => rfl
  | cons kv t ih =>
    obtain ⟨k, w⟩ := kv
    have hss : ¬ s = s' := fun e => hne e.symm
    by_cases hk : k = s
    · have hk' : ¬ k = s' := fun e => hne (e ▸ hk)
      simp [setKey, alookup, hk, hk', hss, ih]
    · by_cases hk' : k = s'
      · simp [setKey, alookup, hk, hk', hne, ih]
      · simp [setKey, alookup, hk, hk', ih]

theorem keys_setKey (m : List (ReadingStage × Nat)) (s : ReadingStage) (c : Nat) :
    (setKey m s c).map Prod.fst = m.map Prod.fst := by
  induction m with
  | nil => rfl
  | cons kv t ih =>
    obtain ⟨k, w⟩ := kv
    by_cases hk : k = s <;> simp [setKey, hk, ih]

theorem setKey_of_absent (m : List (ReadingStage × Nat)) (s : ReadingStage)
    (c : Nat) (h : ∀ kv ∈ m, kv.1 ≠ s) :
    setKey m s c = m := by
  induction m with
  | nil => rfl
  | cons kv t ih =>
    obtain ⟨k, w⟩ := kv
    have hk : ¬ k = s := h (k, w) (List.mem_cons_self _ _)
    simp only [setKey, if_neg hk]
    rw [ih (fun kv hkv => h kv (List.mem_cons_of_mem _ hkv))]

theorem valuesSum_setKey_bump (m : List (ReadingStage × Nat)) (s : ReadingStage)
    (v : Nat) (hl : alookup s m = some v) (hnd : (m.map Prod.fst).Nodup) :
    valuesSum (setKey m s (v + 1)) = valuesSum m + 1 := by
  induction m with
  | nil => simp [alookup] at hl
  | cons kv t ih =>
    obtain ⟨k, w⟩ := kv
    simp only [List.map_cons, List.nodup_cons] at hnd
    by_cases hk : k = s
    · subst hk
      simp [alookup] at hl
      have habs : ∀ kv ∈ t, kv.1 ≠ k := by
        intro kv hkv he
        exact hnd.1 (he ▸ List.mem_map_of_mem Prod.fst hkv)
      have hset : setKey ((k, w) :: t) k (v + 1) = (k, v + 1) :: t := by
        simp [setKey, setKey_of_absent t k (v + 1) habs]
      rw [hset]
      simp only [valuesSum, List.map_cons, List.sum_cons]
      omega
    · simp only [alookup, if_neg hk] at hl
      simp only [setKey, if_neg hk]
      have := ih hl hnd.2
      simp only [valuesSum, List.map_cons, List.sum_cons] at this ⊢
      omega

theorem alookup_bumpStage_self (m : List (ReadingStage × Nat)) (s : ReadingStage) :
    alookup s (bumpStage m s) = some ((alookup s m).getD 0 + 1) := by
  rcases hl : alookup s m with _ | c
  · simp only [bumpStage, hl, Option.getD_none]
    induction m with
    | nil => simp [alookup]
    | cons kv t ih =>
      obtain ⟨k, v⟩ := kv
      by_cases hk : k = s
      · simp [alookup, hk] at hl
      · simp only [alookup, if_neg hk] at hl
        simp [alookup, hk, ih hl]
  · simp only [bumpStage, hl, Option.getD_some]
    exact alookup_setKey_self m s c (c + 1) hl

theorem alookup_bumpStage_ne (m : List (ReadingStage × Nat)) (s s' : ReadingStage)
    (hne : s' ≠ s) :
    alookup s' (bumpStage m s) = alookup s' m := by
  rcases hl : alookup s m with _ | c
  · simp only [bumpStage, hl]
    exact alookup_append_single_ne m s s' 1 hne
  · simp only [bumpStage, hl]
    exact alookup_setKey_ne m s s' (c + 1) hne

theorem keys_bumpStage_some (m : List (ReadingStage × Nat)) (s : ReadingStage)
    (c : Nat) (hl : alookup s m = some c) :
    (bumpStage m s).map Prod.fst = m.map Prod.fst := by
  simp only [bumpStage, hl]
  exact keys_setKey m s (c + 1)

theorem nodupKeys_bumpStage (m : List (ReadingStage × Nat)) (s : ReadingStage)
    (hnd : (m.map Prod.fst).Nodup) :
    ((bumpStage m s).map Prod.fst).Nodup := by
  rcases hl : alookup s m with _ | c
  · simp only [bumpStage, hl, List.map_append, List.map_cons, List.map_nil]
    have hs : s ∉ m.map Prod.fst := by
      intro hmem
      obtain ⟨kv, hkv, he⟩ := List.mem_map.mp hmem
      exact (alookup_eq_none_iff s m).mp hl kv hkv he
    simp [List.nodup_append, hnd, hs]
  · rw [keys_bumpStage_some m s c hl]
    exact hnd

theorem valuesSum_append_single (m : List (ReadingStage × Nat)) (s : ReadingStage)
    (c : Nat) :
    valuesSum (m ++ [(s, c)]) = valuesSum m + c := by
  simp [valuesSum]

theorem valuesSum_bumpStage (m : List (ReadingStage × Nat)) (s : ReadingStage)
    (hnd : (m.map Prod.fst).Nodup) :
    valuesSum (bumpStage m s) = valuesSum m + 1 := by
  rcases hl : alookup s m with _ | c
  · simp only [bumpStage, hl]
    exact valuesSum_append_single m s 1
  · simp only [bumpStage, hl]
    exact valuesSum_setKey_bump m s c hl hnd

theorem domainStagesFold_cons (p : AnalyticsPaper) (t : List AnalyticsPaper)
    (init : ResearchDomain → List (ReadingStage × Nat)) :
    domainStagesFold (p :: t) init =
      domainStagesFold t (fun d =>
        if d = p.researchDomain then bumpStage (init d) p.readingStage else init d) :=
  rfl

theorem fold_nodupKeys (papers : List AnalyticsPaper)
    (init : ResearchDomain → List (ReadingStage × Nat))
    (h : ∀ d, ((init d).map Prod.fst).Nodup) (d : ResearchDomain) :
    ((domainStagesFold papers init d).map Prod.fst).Nodup := by
  induction papers generalizing init with
  | nil => exact h d
  | cons p t ih =>
    rw [domainStagesFold_cons]
    refine ih _ ?_
    intro d'
    by_cases hd : d' = p.researchDomain
    · simp only [if_pos hd]
      exact nodupKeys_bumpStage _ _ (h d')
    · simp only [if_neg hd]
      exact h d'

theorem fold_alookup (papers : List AnalyticsPaper)
    (init : ResearchDomain → List (ReadingStage × Nat))
    (hnd : ∀ d, ((init d).map Prod.fst).Nodup) (d : ResearchDomain) (s : ReadingStage) :
    alookup s (domainStagesFold papers init d)
      = if (papers.filter
              (fun p => p.researchDomain = d && p.readingStage = s)).length = 0
        then alookup s (init d)
        else some ((alookup s (init d)).getD 0 +
               (papers.filter
                 (fun p => p.researchDomain = d && p.readingStage = s)).length) := by
  induction papers generalizing init with
  | nil => simp [domainStagesFold]
  | cons p t ih =>
    rw [domainStagesFold_cons]
    have hnd' : ∀ d',
        (((fun d'' => if d'' = p.researchDomain then bumpStage (init d'') p.readingStage
            else init d'') d').map Prod.fst).Nodup := by
      intro d'
      by_cases hd : d' = p.researchDomain
      · simp only [if_pos hd]
        exact nodupKeys_bumpStage _ _ (hnd d')
      · simp only [if_neg hd]
        exact hnd d'
    rw [ih _ hnd']
    by_cases hd : p.researchDomain = d
    · by_cases hsx : p.readingStage = s
      · have hinit : (if d = p.researchDomain then bumpStage (init d) p.readingStage
            else init d) = bumpStage (init d) s := by
          rw [if_pos hd.symm, hsx]
        have hfc : (List.filter
            (fun p => p.researchDomain = d && p.readingStage = s) (p :: t)).length
            = (List.filter
                (fun p => p.researchDomain = d && p.readingStage = s) t).length + 1 := by
          simp [List.filter_cons, hd, hsx]
        simp only [hinit, alookup_bumpStage_self, hfc]
        by_cases h0 : (List.filter
            (fun p => p.researchDomain = d && p.readingStage = s) t).length = 0
        · simp [h0]
        · simp only [if_neg h0, if_neg (by omega : ¬ ((List.filter
            (fun p => p.researchDomain = d && p.readingStage = s) t).length + 1 = 0)),
            Option.getD_some, Option.some.injEq]
          omega
      · have hne : s ≠ p.readingStage := fun e => hsx e.symm
        have hinit : (if d = p.researchDomain then bumpStage (init d) p.readingStage
            else init d) = bumpStage (init d) p.readingStage := if_pos hd.symm
        have hfc : (List.filter
            (fun p => p.researchDomain = d && p.readingStage = s) (p :: t)).length
            = (List.filter
                (fun p => p.researchDomain = d && p.readingStage = s) t).length := by
          simp [List.filter_cons, hsx]
        rw [hinit, alookup_bumpStage_ne (init d) p.readingStage s hne, hfc]
    · have hd' : ¬ d = p.researchDomain := fun e => hd e.symm
      have hinit : (if d = p.researchDomain then bumpStage (init d) p.readingStage
          else init d) = init d := if_neg hd'
      have hfc : (List.filter
          (fun p => p.researchDomain = d && p.readingStage = s) (p :: t)).length
          = (List.filter
              (fun p => p.researchDomain = d && p.readingStage = s) t).length := by
        simp [List.filter_cons, hd]
      rw [hinit, hfc]

theorem fold_valuesSum (papers : List AnalyticsPaper)
    (init : ResearchDomain → List (ReadingStage × Nat))
    (hnd : ∀ d, ((init d).map Prod.fst).Nodup) (d : ResearchDomain) :
    valuesSum (domainStagesFold papers init d)
      = valuesSum (init d) + (papers.filter (fun p => p.researchDomain = d)).length := by
  induction papers generalizing init with
  | nil => simp [domainStagesFold]
  | cons p t ih =>
    rw [domainStagesFold_cons]
    have hnd' : ∀ d',
        (((fun d'' => if d'' = p.researchDomain then bumpStage (init d'') p.readingStage
            else init d'') d').map Prod.fst).Nodup := by
      intro d'
      by_cases hd : d' = p.researchDomain
      · simp only [if_pos hd]
        exact nodupKeys_bumpStage _ _ (hnd d')
      · simp only [if_neg hd]
        exact hnd d'
    rw [ih _ hnd']
    by_cases hd : p.researchDomain = d
    · have hinit : (if d = p.researchDomain then bumpStage (init d) p.readingStage
          else init d) = bumpStage (init d) p.readingStage := if_pos hd.symm
      have hfc : (List.filter (fun p => p.researchDomain = d) (p :: t)).length
          = (List.filter (fun p => p.researchDomain = d) t).length + 1 := by
        simp [List.filter_cons, hd]
      rw [hinit, valuesSum_bumpStage _ _ (hnd d), hfc]
      omega
    · have hd' : ¬ d = p.researchDomain := fun e => hd e.symm
      have hinit : (if d = p.researchDomain then bumpStage (init d) p.readingStage
          else init d) = init d := if_neg hd'
      have hfc : (List.filter (fun p => p.researchDomain = d) (p :: t)).length
          = (List.filter (fun p => p.researchDomain = d) t).length := by
        simp [List.filter_cons, hd]
      rw [hinit, hfc]

theorem sum_domain_counts (papers : List AnalyticsPaper) :
    (allDomains.map
        (fun d => (papers.filter (fun p => p.researchDomain = d)).length)).sum
      = papers.length := by
  induction papers with
  | nil => rfl
  | cons p t ih =>
    simp only [allDomains, List.map_cons, List.map_nil, List.sum_cons, List.sum_nil,
      List.filter_cons, List.length_cons] at ih ⊢
    cases hp : p.researchDomain <;> simp [hp] at ih ⊢ <;> omega

-- ===========================================================================
-- C4
-- ===========================================================================

/-- C4: the stackedBar output has exactly 6 domain entries in the fixed
order; a domain with zero records in scope appears with an empty stages
mapping (never an absent entry); within a domain only stages with at
least one record of that domain appear as keys, each mapped to the
exact (domain, stage) count; and the counts across all domains sum to
the record-set size, which is `summary.totalPapers` of the same scope
in `getAnalytics`. -/
theorem stackedBar_six_sparse_sum (papers : List AnalyticsPaper) :
    (computeStackedBarData papers).length = 6 ∧
    (computeStackedBarData papers).map StackedBarData.domain = allDomains ∧
    (∀ e ∈ computeStackedBarData papers,
       ((papers.filter (fun p => p.researchDomain = e.domain)).length = 0 →
          e.stages = []) ∧
       (∀ s : ReadingStage,
          (alookup s e.stages).isSome ↔
            0 < (papers.filter
                  (fun p => p.researchDomain = e.domain && p.readingStage = s)).length) ∧
       (∀ s c, alookup s e.stages = some c →
          c = (papers.filter
                (fun p => p.researchDomain = e.domain && p.readingStage = s)).length)) ∧
    ((computeStackedBarData papers).map (fun e => valuesSum e.stages)).sum
      = papers.length ∧
    (∀ (db : List Paper) (owner : String) (filters : PaperFilters) (now : Instant),
       ((getAnalytics db owner filters now).stackedBar.map
           (fun e => valuesSum e.stages)).sum
         = (getAnalytics db owner filters now).summary.totalPapers) := by
  have hsum : ∀ ps : List AnalyticsPaper,
      ((computeStackedBarData ps).map (fun e => valuesSum e.stages)).sum = ps.length := by
    intro ps
    have hmaps : (computeStackedBarData ps).map (fun e => valuesSum e.stages)
        = allDomains.map
            (fun d => (ps.filter (fun p => p.researchDomain = d)).length) := by
      simp only [computeStackedBarData, List.map_map]
      refine List.map_congr_left ?_
      intro d _
      simp only [Function.comp_apply]
      have h := fold_valuesSum ps (fun _ => []) (fun _ => List.nodup_nil) d
      simpa [valuesSum] using h
    rw [hmaps, sum_domain_counts]
  have hlk : ∀ (d : ResearchDomain) (s : ReadingStage),
      alookup s (domainStagesFold papers (fun _ => []) d)
        = if (papers.filter
               (fun p => p.researchDomain = d && p.readingStage = s)).length = 0
          then none
          else some ((papers.filter
                 (fun p => p.researchDomain = d && p.readingStage = s)).length) := by
    intro d s
    have h := fold_alookup papers (fun _ => []) (fun _ => List.nodup_nil) d s
    simpa [alookup] using h
  refine ⟨?_, rfl, ?_, hsum papers, ?_⟩
  · simp [computeStackedBarData, allDomains]
  · intro e he
    simp only [computeStackedBarData, List.mem_map] at he
    obtain ⟨d, _, rfl⟩ := he
    refine ⟨?_, ?_, ?_⟩
    · intro hzero
      dsimp only at hzero
      refine eq_nil_of_alookup_none _ ?_
      intro s
      have hmono : (papers.filter
            (fun p => p.researchDomain = d && p.readingStage = s)).length
          ≤ (papers.filter (fun p => p.researchDomain = d)).length :=
        (List.monotone_filter_right papers
          (fun a ha => by
            simp only [Bool.and_eq_true] at ha
            exact ha.1)).length_le
      have h0 : (papers.filter
          (fun p => p.researchDomain = d && p.readingStage = s)).length = 0 := by
        omega
      show alookup s (domainStagesFold papers (fun _ => []) d) = none
      rw [hlk d s, if_pos h0]
    · intro s
      show (alookup s (domainStagesFold papers (fun _ => []) d)).isSome ↔ _
      rw [hlk d s]
      by_cases h0 : (papers.filter
          (fun p => p.researchDomain = d && p.readingStage = s)).length = 0
      · simp [h0]
      · simp only [if_neg h0, Option.isSome_some, true_iff]
        omega
    · intro s c hc
      dsimp only at hc
      rw [hlk d s] at hc
      by_cases h0 : (papers.filter
          (fun p => p.researchDomain = d && p.readingStage = s)).length = 0
      · rw [if_pos h0] at hc
        exact Option.noConfusion hc
      · rw [if_neg h0] at hc
        exact (Option.some.inj hc).symm
  · intro db owner filters now
    exact hsum _

/-- Witness for C4 on a concrete one-record set: in the physics entry
only the Fully Read stage appears as a key, with count 1. -/
theorem stackedBar_six_sparse_sum_witness :
    (alookup ReadingStage.fullyRead
        ([(ReadingStage.fullyRead, 1)] : List (ReadingStage × Nat))).isSome ↔
      0 < (([({ readingStage := ReadingStage.fullyRead,
                researchDomain := ResearchDomain.physics, citationCount := 10,
                impactScore := ImpactScore.highImpact } : AnalyticsPaper)]).filter
            (fun p => p.researchDomain = ResearchDomain.physics &&
              p.readingStage = ReadingStage.fullyRead)).length :=
  ((stackedBar_six_sparse_sum
      [({ readingStage := ReadingStage.fullyRead,
          researchDomain := ResearchDomain.physics, citationCount := 10,
          impactScore := ImpactScore.highImpact } : AnalyticsPaper)]).2.2.1
    { domain := ResearchDomain.physics, stages := [(ReadingStage.fullyRead, 1)] }
    (by decide)).2.1 ReadingStage.fullyRead

end RPT
